import Mathlib

/-!
Verification of the citation-extraction pipeline of the Research Assistant
repository (`src/tools/citation_extractor.py` and `src/agents/researcher_agent.py`).

Strings are modelled as `List Char`.  Python regular-expression matching is
modelled by a backtracking matcher over a small regex AST; the matcher
enumerates every way a regex can match a prefix of the input, in exactly the
preference order of the Python `re` backtracking engine (alternation prefers the
left branch, greedy repetition prefers more iterations, lazy repetition
prefers fewer), and a match attempt keeps the first entry of that enumeration,
as Python does.  Character classes `\d`, `\s`, `[A-Z]` etc. are modelled over
ASCII (the texts the code handles; Python additionally admits some non-ASCII
code points in `\d`/`\s`, which is irrelevant to every claim below because
both sides of each branch condition are modelled with the same class).

The matcher carries explicit fuel bounding the recursion depth.  Every
recursive call decreases the fuel by exactly one, and the depth of the
backtracking recursion for a regex `r` on a string `s` is at most
`rsize r * (s.length + 1) + 1` (each nesting level either descends into a
strictly smaller sub-regex or restarts a `star` on a strictly shorter string),
so the fuel `(rsize r + 1) * (s.length + 2)` supplied by `allMatches` is never
exhausted and the fuel case never alters the semantics.
-/

/-- Python `str.isspace` / regex `\s` over ASCII: space, tab, newline,
carriage return, form feed, vertical tab. -/
def isPyWs (c : Char) : Bool :=
  c == ' ' || c == '\t' || c == '\n' || c == '\r' || c == Char.ofNat 12 || c == Char.ofNat 11

/-- Python `str.strip()`: remove whitespace from both ends. -/
def pyStrip (s : List Char) : List Char :=
  ((s.dropWhile isPyWs).reverse.dropWhile isPyWs).reverse

/-- The apostrophe character, i.e. `chr(39)`. -/
def aposChar : Char := Char.ofNat 39

/-- Convert a list of ASCII digits to a number; `none` if empty or non-digit. -/
def digitsToNat? (ds : List Char) : Option Nat :=
  if ds = [] then none
  else if ds.all Char.isDigit then
    some (ds.foldl (fun n c => n * 10 + (c.toNat - 48)) 0)
  else none

/-- Python `int(s)` on a decimal string: surrounding whitespace is ignored, an
optional sign is allowed, the rest must be digits; `none` models `ValueError`.
(Python additionally allows `_` separators between digits; such inputs never
reach this function in the modelled code, whose year strings come from `\d{4}`
captures.) -/
def pyInt? (s : List Char) : Option Int :=
  match pyStrip s with
  | '+' :: ds => (digitsToNat? ds).map Int.ofNat
  | '-' :: ds => (digitsToNat? ds).map (fun n => -(Int.ofNat n))
  | ds => (digitsToNat? ds).map Int.ofNat

/-- Source: the `re.sub` call in `_validate_year`, replacing `[a-z]$` by the
empty string.  `$` matches at
the end of the string or just before a final newline, so the substitution
removes one lowercase letter there if present. -/
def stripTrailingLower (s : List Char) : List Char :=
  match s.reverse with
  | '\n' :: c :: rest => if c.isLower then ('\n' :: rest).reverse else s
  | c :: _rest => if c.isLower then (s.reverse.tail).reverse else s
  | [] => s

/-- Source: `CitationExtractor._validate_year`.  Strip a trailing lowercase
letter, parse as an integer, and accept iff `1800 <= year <= current_year + 1`.
The current year at the time of extraction is passed explicitly as `cy`
(the Python code reads `datetime.now().year`). -/
def validateYear (cy : Int) (year : List Char) : Bool :=
  match pyInt? (stripTrailingLower year) with
  | some y => decide (1800 ≤ y ∧ y ≤ cy + 1)
  | none => false

/-- Characters admitted by the author-name class of `_validate_author`:
letters, whitespace, hyphen, period, apostrophe. -/
def authorClassChar (c : Char) : Bool :=
  c.isAlpha || isPyWs c || c == '-' || c == '.' || c == aposChar

/-- Source: `CitationExtractor._validate_author`.  `len(author.split()) >= 1`
holds iff the string has a non-whitespace character; the anchored `re.match`
against one-or-more author-class characters
holds iff the string is nonempty and every character is in the class (the
class contains every whitespace character, so the `$`-before-final-newline
subtlety is immaterial); and the length must be at least 2. -/
def validateAuthor (a : List Char) : Bool :=
  a.any (fun c => !(isPyWs c)) && (!(a.isEmpty) && a.all authorClassChar) && decide (2 ≤ a.length)

/-- Regex AST covering the constructs used by the patterns in the source:
character classes, concatenation, preferred-left alternation, greedy and lazy
Kleene star, capture groups, and the end-of-string anchor `\Z`. -/
inductive Regex where
  | eps : Regex
  | cls (p : Char → Bool) : Regex
  | concat (a b : Regex) : Regex
  | alt (a b : Regex) : Regex
  | star (a : Regex) : Regex
  | lazyStar (a : Regex) : Regex
  | group (i : Nat) (a : Regex) : Regex
  | eos : Regex

/-- Structural size of a regex, used only to compute a sufficient fuel. -/
def rsize : Regex → Nat
  | .eps => 1
  | .cls _ => 1
  | .concat a b => 1 + rsize a + rsize b
  | .alt a b => 1 + rsize a + rsize b
  | .star a => 1 + rsize a
  | .lazyStar a => 1 + rsize a
  | .group _ a => 1 + rsize a
  | .eos => 1

/-- A capture record `(i, pre, post)`: group `i` matched the region that
starts when the unconsumed suffix has length `pre` and ends when it has
length `post` (both measured in the string the match attempt started on). -/
abbrev Caps := List (Nat × Nat × Nat)

/-- All ways `r` can match a prefix of `s`, as pairs of the captured groups
and the unconsumed suffix, in Python backtracking preference order.  The
`filter` in the `star` cases mirrors the rule of the `re` engine that a repetition
stops once an iteration consumes nothing.  `fuel` bounds the recursion depth
and is never exhausted for the fuel chosen by `allMatches`. -/
def allM : Nat → Regex → List Char → List (Caps × List Char)
  | 0, _, _ => []
  | _ + 1, .eps, s => [([], s)]
  | _ + 1, .cls _, [] => []
  | _ + 1, .cls p, c :: t => if p c then [([], t)] else []
  | f + 1, .concat a b, s =>
      (allM f a s).flatMap (fun pr =>
        (allM f b pr.2).map (fun q => (pr.1 ++ q.1, q.2)))
  | f + 1, .alt a b, s => allM f a s ++ allM f b s
  | f + 1, .star a, s =>
      (((allM f a s).filter (fun pr => pr.2.length < s.length)).flatMap (fun pr =>
        (allM f (.star a) pr.2).map (fun q => (pr.1 ++ q.1, q.2)))) ++ [([], s)]
  | f + 1, .lazyStar a, s =>
      ([], s) :: ((allM f a s).filter (fun pr => pr.2.length < s.length)).flatMap (fun pr =>
        (allM f (.lazyStar a) pr.2).map (fun q => (pr.1 ++ q.1, q.2)))
  | f + 1, .group i a, s =>
      (allM f a s).map (fun pr => (pr.1 ++ [(i, s.length, pr.2.length)], pr.2))
  | _ + 1, .eos, s => if s.isEmpty then [([], s)] else []

/-- All prefix matches of `r` on `s` with sufficient fuel. -/
def allMatches (r : Regex) (s : List Char) : List (Caps × List Char) :=
  allM ((rsize r + 1) * (s.length + 2)) r s

/-- A match found while scanning: absolute start and end offsets in the
scanned string, plus the capture records. -/
structure RMatch where
  mstart : Nat
  mstop : Nat
  caps : Caps
deriving DecidableEq, Repr

/-- Attempt a match of `r` at offset `pos` of `s`; the Python engine keeps the
first match in backtracking order. -/
def matchAt (r : Regex) (s : List Char) (pos : Nat) : Option (Caps × List Char) :=
  (allMatches r (s.drop pos)).head?

/-- Scanning loop of `re.finditer`: try each position left to right, emit
non-overlapping matches, resume after each match (advancing one position
after an empty match). -/
def scanAux (r : Regex) (s : List Char) : Nat → Nat → List RMatch
  | 0, _ => []
  | fuel + 1, pos =>
      if pos > s.length then []
      else
        match matchAt r s pos with
        | none => scanAux r s fuel (pos + 1)
        | some (caps, rest) =>
            let consumed := (s.length - pos) - rest.length
            ⟨pos, pos + consumed, caps⟩ ::
              scanAux r s fuel (if consumed = 0 then pos + 1 else pos + consumed)

/-- Source: `re.finditer(pattern, text)` (the list of its matches, in order). -/
def finditer (r : Regex) (s : List Char) : List RMatch :=
  scanAux r s (s.length + 1) 0

/-- Scanning loop of `re.search`: the first position with a match. -/
def searchAux (r : Regex) (s : List Char) : Nat → Nat → Option RMatch
  | 0, _ => none
  | fuel + 1, pos =>
      if pos > s.length then none
      else
        match matchAt r s pos with
        | none => searchAux r s fuel (pos + 1)
        | some (caps, rest) =>
            let consumed := (s.length - pos) - rest.length
            some ⟨pos, pos + consumed, caps⟩

/-- Source: `re.search(pattern, text)`. -/
def reSearch (r : Regex) (s : List Char) : Option RMatch :=
  searchAux r s (s.length + 1) 0

/-- Last capture record of group `i` (Python keeps the last occurrence for a
repeated group; the groups of the source patterns are not repeated). -/
def capLookup (caps : Caps) (i : Nat) : Option (Nat × Nat) :=
  (caps.reverse.find? (fun c => c.1 == i)).map (fun c => c.2)

/-- Text of the full match `m` inside the scanned string `rtext`
(`match.group(0)`). -/
def matchText (rtext : List Char) (m : RMatch) : List Char :=
  (rtext.drop m.mstart).take (m.mstop - m.mstart)

/-- Text of capture group `i` of match `m` (`match.group(i)`); `none` models
both `IndexError` (no such group) and a group that did not participate. -/
def groupText (rtext : List Char) (m : RMatch) (i : Nat) : Option (List Char) :=
  (capLookup m.caps i).map (fun pp =>
    (rtext.drop (rtext.length - pp.1)).take (pp.1 - pp.2))

/-- Regex matching one literal character. -/
def rchar (c : Char) : Regex := .cls (fun x => x == c)

/-- Regex matching one literal character case-insensitively (`re.IGNORECASE`). -/
def ichar (c : Char) : Regex := .cls (fun x => x.toLower == c.toLower)

/-- Concatenation of a list of regexes. -/
def rseq : List Regex → Regex
  | [] => .eps
  | [r] => r
  | r :: rs => .concat r (rseq rs)

/-- Literal string regex. -/
def rstr (s : List Char) : Regex := rseq (s.map rchar)

/-- Case-insensitive literal string regex. -/
def istr (s : List Char) : Regex := rseq (s.map ichar)

/-- Greedy `+`. -/
def rplus (r : Regex) : Regex := .concat r (.star r)

/-- Greedy `?`. -/
def ropt (r : Regex) : Regex := .alt r .eps

/-- Character class `\d` (ASCII decimal digits). -/
def digitC : Regex := .cls Char.isDigit

/-- Character class `\s`. -/
def wsC : Regex := .cls isPyWs

/-- Character class `[A-Z]`. -/
def upperC : Regex := .cls Char.isUpper

/-- Character class `[a-z]`. -/
def lowerC : Regex := .cls Char.isLower

/-- Character class `[A-Za-z]`. -/
def alphaC : Regex := .cls Char.isAlpha

/-- The author-text character class from pattern 1 (letters, whitespace,
hyphen, period, apostrophe). -/
def authC : Regex := .cls authorClassChar

/-- The class `.` under `re.DOTALL` (any character). -/
def anyC : Regex := .cls (fun _ => true)

/-- The class `.` without `re.DOTALL` (any character except newline). -/
def dotC : Regex := .cls (fun c => !(c == '\n'))

/-- Sub-regex `\d{4}`. -/
def d4 : Regex := rseq [digitC, digitC, digitC, digitC]

/-- Sub-regex `[A-Z][a-z]+(?:\s+[A-Z][a-z]+)*` (a capitalized name, possibly
several capitalized words separated by whitespace). -/
def nameR : Regex :=
  .concat (.concat upperC (rplus lowerC))
    (.star (.concat (rplus wsC) (.concat upperC (rplus lowerC))))

/-- An entry of the pattern library: the Python pattern source string (the
branch condition at line 117 inspects it for the characters `[`, `(` and the
substring `and`) together with its AST. -/
structure PatEntry where
  pstr : List Char
  ast : Regex

/-- Pattern 1: bracketed digits with an optional trailing author-text run
(the class of letters, whitespace, hyphen, period and apostrophe). -/
def pat1 : PatEntry :=
  ⟨("\\[(\\d+)\\](?:\\s*[A-Za-z\\s\\-\\." ++ String.mk [aposChar] ++ "]+)?").toList,
   rseq [rchar '[', .group 1 (rplus digitC), rchar ']', ropt (.concat (.star wsC) (rplus authC))]⟩

/-- Pattern 2: `\[(\d+(?:,\s*\d+)*)\]`. -/
def pat2 : PatEntry :=
  ⟨"\\[(\\d+(?:,\\s*\\d+)*)\\]".toList,
   rseq [rchar '[',
         .group 1 (.concat (rplus digitC) (.star (rseq [rchar ',', .star wsC, rplus digitC]))),
         rchar ']']⟩

/-- Pattern 3: `\[(?:\d+)(?:\-\d+)*\]`. -/
def pat3 : PatEntry :=
  ⟨"\\[(?:\\d+)(?:\\-\\d+)*\\]".toList,
   rseq [rchar '[', rplus digitC, .star (.concat (rchar '-') (rplus digitC)), rchar ']']⟩

/-- Pattern 4: `\((\d+)\)`. -/
def pat4 : PatEntry :=
  ⟨"\\((\\d+)\\)".toList,
   .concat (rchar '(') (.concat (.group 1 (rplus digitC)) (rchar ')'))⟩

/-- The tail `(?:,\s*\d+)*` of the capture group of pattern 5. -/
def p5tail : Regex := .concat (rchar ',') (.concat (.star wsC) (rplus digitC))

/-- Pattern 5: `\((\d+(?:,\s*\d+)*)\)`. -/
def pat5 : PatEntry :=
  ⟨"\\((\\d+(?:,\\s*\\d+)*)\\)".toList,
   .concat (rchar '(') (.concat
     (.group 1 (.concat (rplus digitC) (.star p5tail)))
     (rchar ')'))⟩

/-- Pattern 6: `([A-Z][a-z]+(?:\s+[A-Z][a-z]+)*)\s+et\s+al\.\s*\((\d{4})\)`. -/
def pat6 : PatEntry :=
  ⟨"([A-Z][a-z]+(?:\\s+[A-Z][a-z]+)*)\\s+et\\s+al\\.\\s*\\((\\d{4})\\)".toList,
   rseq [.group 1 nameR, rplus wsC, rstr "et".toList, rplus wsC, rstr "al".toList,
         rchar '.', .star wsC, rchar '(', .group 2 d4, rchar ')']⟩

/-- Pattern 7: `\(([A-Z][a-z]+(?:\s+[A-Z][a-z]+)*)\s+et\s+al\.\s*,\s*(\d{4})\)`. -/
def pat7 : PatEntry :=
  ⟨"\\(([A-Z][a-z]+(?:\\s+[A-Z][a-z]+)*)\\s+et\\s+al\\.\\s*,\\s*(\\d{4})\\)".toList,
   rseq [rchar '(', .group 1 nameR, rplus wsC, rstr "et".toList, rplus wsC, rstr "al".toList,
         rchar '.', .star wsC, rchar ',', .star wsC, .group 2 d4, rchar ')']⟩

/-- Pattern 8: `([A-Z][a-z]+(?:\s+[A-Z][a-z]+)*)\s*\((\d{4})\)`. -/
def pat8 : PatEntry :=
  ⟨"([A-Z][a-z]+(?:\\s+[A-Z][a-z]+)*)\\s*\\((\\d{4})\\)".toList,
   rseq [.group 1 nameR, .star wsC, rchar '(', .group 2 d4, rchar ')']⟩

/-- Pattern 9: `\(([A-Z][a-z]+(?:\s+[A-Z][a-z]+)*)\s*,\s*(\d{4})\)`. -/
def pat9 : PatEntry :=
  ⟨"\\(([A-Z][a-z]+(?:\\s+[A-Z][a-z]+)*)\\s*,\\s*(\\d{4})\\)".toList,
   rseq [rchar '(', .group 1 nameR, .star wsC, rchar ',', .star wsC, .group 2 d4, rchar ')']⟩

/-- Pattern 10: `([A-Z][a-z]+(?:\s+[A-Z][a-z]+)*)\s+and\s+([A-Z][a-z]+(?:\s+[A-Z][a-z]+)*)\s*\((\d{4})\)`. -/
def pat10 : PatEntry :=
  ⟨"([A-Z][a-z]+(?:\\s+[A-Z][a-z]+)*)\\s+and\\s+([A-Z][a-z]+(?:\\s+[A-Z][a-z]+)*)\\s*\\((\\d{4})\\)".toList,
   rseq [.group 1 nameR, rplus wsC, rstr "and".toList, rplus wsC, .group 2 nameR,
         .star wsC, rchar '(', .group 3 d4, rchar ')']⟩

/-- Pattern 11: `\(([A-Z][a-z]+(?:\s+[A-Z][a-z]+)*)\s+and\s+([A-Z][a-z]+(?:\s+[A-Z][a-z]+)*),\s*(\d{4})\)`. -/
def pat11 : PatEntry :=
  ⟨"\\(([A-Z][a-z]+(?:\\s+[A-Z][a-z]+)*)\\s+and\\s+([A-Z][a-z]+(?:\\s+[A-Z][a-z]+)*),\\s*(\\d{4})\\)".toList,
   rseq [rchar '(', .group 1 nameR, rplus wsC, rstr "and".toList, rplus wsC, .group 2 nameR,
         rchar ',', .star wsC, .group 3 d4, rchar ')']⟩

/-- Pattern 12: `\[([A-Za-z]+\d{2}(?:[a-z])?)\]`. -/
def pat12 : PatEntry :=
  ⟨"\\[([A-Za-z]+\\d{2}(?:[a-z])?)\\]".toList,
   rseq [rchar '[', .group 1 (rseq [rplus alphaC, digitC, digitC, ropt lowerC]), rchar ']']⟩

/-- Pattern 13: `([A-Z][a-z]+(?:\s+[A-Z][a-z]+)*)\s+et\s+al\.\s*\((\d{4}(?:[a-z])?)\)`. -/
def pat13 : PatEntry :=
  ⟨"([A-Z][a-z]+(?:\\s+[A-Z][a-z]+)*)\\s+et\\s+al\\.\\s*\\((\\d{4}(?:[a-z])?)\\)".toList,
   rseq [.group 1 nameR, rplus wsC, rstr "et".toList, rplus wsC, rstr "al".toList,
         rchar '.', .star wsC, rchar '(', .group 2 (.concat d4 (ropt lowerC)), rchar ')']⟩

/-- Pattern 14: `\(([A-Z][a-z]+(?:\s+[A-Z][a-z]+)*)\s+et\s+al\.\s*,\s*(\d{4}(?:[a-z])?)\)`. -/
def pat14 : PatEntry :=
  ⟨"\\(([A-Z][a-z]+(?:\\s+[A-Z][a-z]+)*)\\s+et\\s+al\\.\\s*,\\s*(\\d{4}(?:[a-z])?)\\)".toList,
   rseq [rchar '(', .group 1 nameR, rplus wsC, rstr "et".toList, rplus wsC, rstr "al".toList,
         rchar '.', .star wsC, rchar ',', .star wsC, .group 2 (.concat d4 (ropt lowerC)), rchar ')']⟩

/-- Pattern 15: `([A-Z][a-z]+(?:\s+[A-Z][a-z]+)*)(?:\s*,\s*[A-Z][a-z]+(?:\s+[A-Z][a-z]+)*)*\s+et\s+al\.\s*\((\d{4})\)`. -/
def pat15 : PatEntry :=
  ⟨"([A-Z][a-z]+(?:\\s+[A-Z][a-z]+)*)(?:\\s*,\\s*[A-Z][a-z]+(?:\\s+[A-Z][a-z]+)*)*\\s+et\\s+al\\.\\s*\\((\\d{4})\\)".toList,
   rseq [.group 1 nameR, .star (rseq [.star wsC, rchar ',', .star wsC, nameR]),
         rplus wsC, rstr "et".toList, rplus wsC, rstr "al".toList,
         rchar '.', .star wsC, rchar '(', .group 2 d4, rchar ')']⟩

/-- Pattern 16: `\(([A-Z][a-z]+(?:\s+[A-Z][a-z]+)*)(?:\s*,\s*[A-Z][a-z]+(?:\s+[A-Z][a-z]+)*)*\s+et\s+al\.\s*,\s*(\d{4})\)`. -/
def pat16 : PatEntry :=
  ⟨"\\(([A-Z][a-z]+(?:\\s+[A-Z][a-z]+)*)(?:\\s*,\\s*[A-Z][a-z]+(?:\\s+[A-Z][a-z]+)*)*\\s+et\\s+al\\.\\s*,\\s*(\\d{4})\\)".toList,
   rseq [rchar '(', .group 1 nameR, .star (rseq [.star wsC, rchar ',', .star wsC, nameR]),
         rplus wsC, rstr "et".toList, rplus wsC, rstr "al".toList,
         rchar '.', .star wsC, rchar ',', .star wsC, .group 2 d4, rchar ')']⟩

/-- Pattern 17: `([A-Z][a-z]+(?:\s+[A-Z][a-z]+)*)\s*\((\d{4}),\s*p\.\s*\d+\)`. -/
def pat17 : PatEntry :=
  ⟨"([A-Z][a-z]+(?:\\s+[A-Z][a-z]+)*)\\s*\\((\\d{4}),\\s*p\\.\\s*\\d+\\)".toList,
   rseq [.group 1 nameR, .star wsC, rchar '(', .group 2 d4, rchar ',', .star wsC,
         rchar 'p', rchar '.', .star wsC, rplus digitC, rchar ')']⟩

/-- Pattern 18: `\(([A-Z][a-z]+(?:\s+[A-Z][a-z]+)*)\s*,\s*(\d{4}),\s*p\.\s*\d+\)`. -/
def pat18 : PatEntry :=
  ⟨"\\(([A-Z][a-z]+(?:\\s+[A-Z][a-z]+)*)\\s*,\\s*(\\d{4}),\\s*p\\.\\s*\\d+\\)".toList,
   rseq [rchar '(', .group 1 nameR, .star wsC, rchar ',', .star wsC, .group 2 d4,
         rchar ',', .star wsC, rchar 'p', rchar '.', .star wsC, rplus digitC, rchar ')']⟩

/-- Pattern 19: `([A-Z][a-z]+(?:\s+[A-Z][a-z]+)*)\s*\((\d{4}),\s*vol\.\s*\d+\)`. -/
def pat19 : PatEntry :=
  ⟨"([A-Z][a-z]+(?:\\s+[A-Z][a-z]+)*)\\s*\\((\\d{4}),\\s*vol\\.\\s*\\d+\\)".toList,
   rseq [.group 1 nameR, .star wsC, rchar '(', .group 2 d4, rchar ',', .star wsC,
         rstr "vol".toList, rchar '.', .star wsC, rplus digitC, rchar ')']⟩

/-- Pattern 20: `\(([A-Z][a-z]+(?:\s+[A-Z][a-z]+)*)\s*,\s*(\d{4}),\s*vol\.\s*\d+\)`. -/
def pat20 : PatEntry :=
  ⟨"\\(([A-Z][a-z]+(?:\\s+[A-Z][a-z]+)*)\\s*,\\s*(\\d{4}),\\s*vol\\.\\s*\\d+\\)".toList,
   rseq [rchar '(', .group 1 nameR, .star wsC, rchar ',', .star wsC, .group 2 d4,
         rchar ',', .star wsC, rstr "vol".toList, rchar '.', .star wsC, rplus digitC, rchar ')']⟩

/-- Source: `self.patterns` in `CitationExtractor.__init__`, in order. -/
def patternTable : List PatEntry :=
  [pat1, pat2, pat3, pat4, pat5, pat6, pat7, pat8, pat9, pat10,
   pat11, pat12, pat13, pat14, pat15, pat16, pat17, pat18, pat19, pat20]

/-- The pattern source strings, in library order. -/
def patternStrings : List (List Char) := patternTable.map (fun pe => pe.pstr)

/-- The references-section pattern
`(?:References|Bibliography|Works Cited)\s*\n+(.*?)(?:\n\n|\Z)` with
`re.DOTALL | re.IGNORECASE`. -/
def refsRegex : Regex :=
  rseq [.alt (istr "References".toList) (.alt (istr "Bibliography".toList) (istr "Works Cited".toList)),
        .star wsC, rplus (rchar '\n'),
        .group 1 (.lazyStar anyC),
        .alt (.concat (rchar '\n') (rchar '\n')) .eos]

/-- The topic pattern `about (.+)` of the task dispatcher. -/
def aboutRegex : Regex :=
  .concat (rstr "about ".toList) (.group 1 (rplus dotC))

/-- Origin region of a citation: the full document body (`"inline"`) or the
detected references section (`"reference"`). -/
inductive Region where
  | inline : Region
  | reference : Region
deriving DecidableEq, Repr

/-- The string stored in the `citation_type` field. -/
def Region.str : Region → List Char
  | .inline => "inline".toList
  | .reference => "reference".toList

/-- A citation record, one of the shapes built by `extract_citations`:
`{"citation_text", "number", "type": "numerical", "citation_type", "context"}`
for the numerical branch (the `type` field is the constant `"numerical"` and
is represented by the constructor), `{"author", "year", ...}` for the
single-author branch and `{"authors": [a1, a2], "year", ...}` for the
two-author branch. -/
inductive Citation where
  | numerical (citation_text number : List Char) (citation_type : Region) (context : List Char)
  | single (author year : List Char) (citation_type : Region) (context : List Char)
  | two (author1 author2 year : List Char) (citation_type : Region) (context : List Char)
deriving DecidableEq, Repr

/-- The `citation_type` field of a record. -/
def Citation.ctype : Citation → Region
  | .numerical _ _ rt _ => rt
  | .single _ _ rt _ => rt
  | .two _ _ _ rt _ => rt

/-- True for records of the numerical shape. -/
def Citation.isNumerical : Citation → Bool
  | .numerical _ _ _ _ => true
  | _ => false

/-- Dedup key of a record: `(citation_type, citation_text, number)` for a
numerical record and `(citation_type, author(s), year)` for a named record. -/
inductive DedupKey where
  | num (rt : Region) (citation_text number : List Char) : DedupKey
  | named (rt : Region) (authors : List (List Char)) (year : List Char) : DedupKey
deriving DecidableEq, Repr

/-- Dedup key of a citation record. -/
def dedupKey : Citation → DedupKey
  | .numerical t n rt _ => .num rt t n
  | .single a y rt _ => .named rt [a] y
  | .two a1 a2 y rt _ => .named rt [a1, a2] y

/-- The key string the source builds with an f-string: components joined by
`_` (`f"{citation_type}_{citation_text}_{num}"` and the named analogues). -/
def keyOf : DedupKey → List Char
  | .num rt t n => rt.str ++ '_' :: t ++ '_' :: n
  | .named rt as y => rt.str ++ (as.flatMap (fun a => '_' :: a)) ++ '_' :: y

/-- Key string of a citation record (the value added to `seen_citations`). -/
def keyString (c : Citation) : List Char := keyOf (dedupKey c)

/-- A citation record annotated with the provenance of the match that
produced it: the region pass and the start/stop offsets of the match within
the text of that region.  `extract_citations` erases this annotation. -/
structure AnnCitation where
  cit : Citation
  region : Region
  mstart : Nat
  mstop : Nat
deriving DecidableEq, Repr

/-- Accumulator of the extraction loop: the records found so far (`citations`)
and the set of their key strings (`seen_citations`). -/
structure ExtractState where
  recs : List AnnCitation
  seen : List (List Char)
deriving DecidableEq, Repr

/-- The Python substring test `sub in s` for strings. -/
def containsSub (sub : List Char) : List Char → Bool
  | [] => sub.isPrefixOf []
  | c :: t => sub.isPrefixOf (c :: t) || containsSub sub t

/-- A guarded append: `if citation_key not in seen_citations:
citations.append(citation); seen_citations.add(citation_key)`. -/
def emit (st : ExtractState) (a : AnnCitation) : ExtractState :=
  if keyString a.cit ∈ st.seen then st
  else ⟨st.recs ++ [a], keyString a.cit :: st.seen⟩

/-- Source, line 117: `'[' in pattern or '(' in pattern and any(c.isdigit()
for c in match.group(0))`.  In Python, `and` binds tighter than `or`, so the
expression groups as `('[' in pattern) or (('(' in pattern) and any(...))`. -/
def numericalCond (pattern mtext : List Char) : Bool :=
  pattern.contains '[' || (pattern.contains '(' && mtext.any Char.isDigit)

/-- Source: `re.findall` of `\d+` over `citation_text` — the maximal runs of
digits. -/
def findallDigits (s : List Char) : List (List Char) :=
  (finditer (rplus digitC) s).map (fun m => matchText s m)

/-- Source: `current_text[max(0, match.start() - 50):min(len(current_text),
match.end() + 50)].strip()` (natural-number subtraction truncates at zero,
matching `max(0, ...)`). -/
def contextOf (rtext : List Char) (m : RMatch) : List Char :=
  pyStrip ((rtext.drop (m.mstart - 50)).take (min rtext.length (m.mstop + 50) - (m.mstart - 50)))

/-- Processing of one match (the body of the innermost loop of
`extract_citations`, lines 116-171).  `rt` is the region pass, `rtext` the
the text of that region, `pstr` the source string of the pattern.  Exceptions
raised while
reading a capture group (`IndexError` for a missing group, `AttributeError`
for `None.strip()`) are caught by the `except` clause and skip the match;
they are modelled by the `none` cases.  In the numerical branch the source
appends each number under its key guard inside the `for num` loop and then
falls through to the common guarded append (lines 164-166) with the last
citation and key of that loop, re-modelled verbatim (it is a no-op since the
key was just inserted). -/
def processMatch (cy : Int) (rt : Region) (rtext pstr : List Char)
    (st : ExtractState) (m : RMatch) : ExtractState :=
  let mtext := matchText rtext m
  let ctx := contextOf rtext m
  if numericalCond pstr mtext then
    let nums := findallDigits mtext
    match nums.getLast? with
    | none => st
    | some lastNum =>
        let st1 := nums.foldl
          (fun s n => emit s ⟨.numerical mtext n rt ctx, rt, m.mstart, m.mstop⟩) st
        emit st1 ⟨.numerical mtext lastNum rt ctx, rt, m.mstart, m.mstop⟩
  else if containsSub "and".toList pstr then
    match groupText rtext m 1, groupText rtext m 2, groupText rtext m 3 with
    | some g1, some g2, some g3 =>
        let author1 := pyStrip g1
        let author2 := pyStrip g2
        let year := pyStrip g3
        if validateAuthor author1 && validateAuthor author2 && validateYear cy year then
          emit st ⟨.two author1 author2 year rt ctx, rt, m.mstart, m.mstop⟩
        else st
    | _, _, _ => st
  else
    match groupText rtext m 1, groupText rtext m 2 with
    | some g1, some g2 =>
        let author := pyStrip g1
        let year := pyStrip g2
        if validateAuthor author && validateYear cy year then
          emit st ⟨.single author year rt ctx, rt, m.mstart, m.mstop⟩
        else st
    | _, _ => st

/-- Inner loop over the matches of one pattern in one region. -/
def processPattern (cy : Int) (rt : Region) (rtext : List Char)
    (st : ExtractState) (pe : PatEntry) : ExtractState :=
  (finditer pe.ast rtext).foldl (processMatch cy rt rtext pe.pstr) st

/-- Loop over the pattern library for one region. -/
def processRegion (cy : Int) (st : ExtractState) (pr : Region × List Char) : ExtractState :=
  patternTable.foldl (processPattern cy pr.1 pr.2) st

/-- Absolute span of capture group 1 of the references-section match, if a
references section is detected (`references_match` at line 106). -/
def refGroupSpan (text : List Char) : Option (Nat × Nat) :=
  (reSearch refsRegex text).bind (fun m =>
    (capLookup m.caps 1).map (fun pp => (text.length - pp.1, text.length - pp.2)))

/-- Source: `references_match.group(1) if references_match else ""`. -/
def referencesText (text : List Char) : List Char :=
  match refGroupSpan text with
  | some (a, b) => (text.drop a).take (b - a)
  | none => []

/-- Source: `texts_to_process = [(text, "inline"), (references_text, "reference")]`. -/
def regionsOf (text : List Char) : List (Region × List Char) :=
  [(Region.inline, text), (Region.reference, referencesText text)]

/-- The whole extraction loop of `extract_citations`, keeping provenance
annotations; `extract_citations` below erases them. -/
def extractCore (cy : Int) (text : List Char) : ExtractState :=
  if text = [] then ⟨[], []⟩
  else (regionsOf text).foldl (processRegion cy) ⟨[], []⟩

/-- Source: `CitationExtractor.extract_citations`.  Returns the empty list on
empty input (after logging), otherwise the deduplicated citation records in
discovery order. -/
def extract_citations (cy : Int) (text : List Char) : List Citation :=
  (extractCore cy text).recs.map (fun a => a.cit)

/-- The result dictionary of `process_text`:
`{"success": ..., "citations": ..., "error": ...}`. -/
structure ProcResult where
  success : Bool
  citations : List Citation
  error : Option (List Char)
deriving DecidableEq, Repr

/-- Source: `CitationExtractor.process_text`.  On empty text the initial
result (success `False`, no citations) is returned with the error string set;
otherwise extraction runs and succeeds (the embedded extraction is total, so
the `except` arm that would record an internal error is unreachable). -/
def process_text (cy : Int) (text : List Char) : ProcResult :=
  if text = [] then ⟨false, [], some "Empty text provided".toList⟩
  else ⟨true, extract_citations cy text, none⟩

/-- Python `task.lower().strip()` (ASCII lowering; the routing keywords are
ASCII). -/
def taskLower (task : List Char) : List Char :=
  pyStrip (task.map Char.toLower)

/-- Condition of the search branch:
`"search" in task_lower and ("paper" in task_lower or "research" in task_lower)`. -/
def searchTaskCond (tl : List Char) : Bool :=
  containsSub "search".toList tl &&
    (containsSub "paper".toList tl || containsSub "research".toList tl)

/-- Condition of the download branch:
`any(word in task_lower for word in ["download", "summarize", "read"])`. -/
def downloadTaskCond (tl : List Char) : Bool :=
  containsSub "download".toList tl || containsSub "summarize".toList tl ||
    containsSub "read".toList tl

/-- Condition of the citation branch:
`"citation" in task_lower or "reference" in task_lower`. -/
def citationTaskCond (tl : List Char) : Bool :=
  containsSub "citation".toList tl || containsSub "reference".toList tl

/-- Python `s.find(sub)`: index of the first occurrence, `none` for `-1`. -/
def findSub (sub : List Char) : List Char → Option Nat
  | [] => if sub.isPrefixOf [] then some 0 else none
  | c :: t =>
      if sub.isPrefixOf (c :: t) then some 0
      else (findSub sub t).map (fun i => i + 1)

/-- Python `s.rstrip(chars)`. -/
def rstripSet (chars : List Char) (s : List Char) : List Char :=
  (s.reverse.dropWhile (fun c => chars.contains c)).reverse

/-- Python `task.split(":", 1)` restricted to what `run` uses: the part after
the first colon, or `none` when there is no colon (`len(text_parts) < 2`). -/
def splitFirstColon : List Char → Option (List Char)
  | [] => none
  | c :: t => if c == ':' then some t else splitFirstColon t

/-- Python `s.replace(sub, repl)` (all non-overlapping occurrences, left to
right); the fuel is the length of `s`, enough since each step consumes at
least one character of `s`. -/
def pyReplaceAux (sub repl : List Char) : Nat → List Char → List Char
  | 0, s => s
  | fuel + 1, s =>
      if sub ≠ [] ∧ sub.isPrefixOf s then
        repl ++ pyReplaceAux sub repl fuel (s.drop sub.length)
      else
        match s with
        | [] => []
        | c :: t => c :: pyReplaceAux sub repl fuel t

/-- Python `s.replace(sub, repl)`. -/
def pyReplace (s sub repl : List Char) : List Char :=
  pyReplaceAux sub repl s.length s

/-- Result of `ResearcherAgent.run`.  The search and download branches
delegate to the out-of-scope network collaborators and are modelled by
constructors recording the delegated arguments; the delegation of the
citation branch
is in scope and records both the delegated text and the result of
`process_text` on it; `failed e` is the structured failure dictionary
`{"success": False, "error": e}` returned when a `ValueError` raised in the
branch body is caught. -/
inductive RunResult where
  | searchDelegated (query : List Char) (maxResults : Option Nat) : RunResult
  | processDelegated (url : List Char) : RunResult
  | citationExtraction (text : List Char) (result : ProcResult) : RunResult
  | failed (error : List Char) : RunResult
deriving DecidableEq, Repr

/-- Source: `ResearcherAgent.run`.  The empty-task guard comes first; then the
three keyword branches in order; an unmatched task raises `ValueError`
(caught, returning the failure dictionary).  In the search branch the topic
is group 1 of `re.search` for `about (.+)` on the lowered task, stripped,
else the task
with `"search"` and `"papers"` removed; group 1 of that pattern always
participates in a match, so the `getD` default is unreachable.  In the
download branch the URL runs from the first `"http"` to the next space and is
right-stripped of `.,;`. -/
def run (cy : Int) (task : List Char) (maxResults : Option Nat) : RunResult :=
  if task = [] then .failed "Invalid task: must be a non-empty string".toList
  else
    let tl := taskLower task
    if searchTaskCond tl then
      match reSearch aboutRegex tl with
      | some m => .searchDelegated (pyStrip ((groupText tl m 1).getD [])) maxResults
      | none =>
          .searchDelegated (pyStrip (pyReplace (pyReplace tl "search".toList []) "papers".toList []))
            maxResults
    else if downloadTaskCond tl then
      match findSub "http".toList task with
      | none => .failed "No URL found in task".toList
      | some i =>
          let j := match findSub [' '] (task.drop i) with
                   | some k => i + k
                   | none => task.length
          let url := rstripSet ".,;".toList ((task.drop i).take (j - i))
          if url = [] then .failed "Invalid URL in task".toList
          else .processDelegated url
    else if citationTaskCond tl then
      match splitFirstColon task with
      | none => .failed "No text provided for citation extraction".toList
      | some after =>
          let text := pyStrip after
          if text = [] then .failed "Empty text for citation extraction".toList
          else .citationExtraction text (process_text cy text)
    else .failed ("Unknown task type: ".toList ++ task)

/-- Scenario text of claim C5: `"See [1] and [2,3] for details."`. -/
def scenario5Text : List Char := "See [1] and [2,3] for details.".toList

/-- Scenario text of claim C4:
`"Smith (2020) showed X. \n\nReferences\nSmith, J. (2020). Title."`. -/
def scenario4Text : List Char :=
  "Smith (2020) showed X. \n\nReferences\nSmith, J. (2020). Title.".toList

/-- Text exhibiting a match inside the references block (claim C3): the
references heading followed by a bracketed citation. -/
def scenario3Text : List Char := "References\n[7]".toList

/-- Scenario task of claim C9: `"extract citations: Smith (2020) argued..."`. -/
def scenario9Task : List Char := "extract citations: Smith (2020) argued...".toList

/-- True for a named record (single- or two-author) with the given author
among its authors and the given year. -/
def hasNamedAuthorYear (a y : List Char) : Citation → Bool
  | .numerical _ _ _ _ => false
  | .single a1 y1 _ _ => a1 == a && y1 == y
  | .two a1 a2 y1 _ _ => (a1 == a || a2 == a) && y1 == y

/-- The per-record property of claim C7: a numerical record is unconstrained;
a
named record must have a year passing the bound (strip one trailing lowercase
letter, parse, check `1800 <= y <= cy + 1`, which is exactly
`_validate_year`). -/
def namedYearOK (cy : Int) : Citation → Bool
  | .numerical _ _ _ _ => true
  | .single _ y _ _ => validateYear cy y
  | .two _ _ y _ _ => validateYear cy y

/-- A `foldl` preserves any invariant its step preserves. -/
theorem foldl_pres {σ α : Type} (P : σ → Prop) (f : σ → α → σ)
    (h : ∀ s a, P s → P (f s a)) :
    ∀ (l : List α) (s : σ), P s → P (l.foldl f s) := by
  intro l
  induction l with
  | nil => intro s hs; exact hs
  | cons x xs ih => intro s hs; exact ih (f s x) (h s x hs)

/-- A `foldl` preserves any invariant its step preserves on list members. -/
theorem foldl_pres_mem {σ α : Type} (P : σ → Prop) (f : σ → α → σ) :
    ∀ (l : List α), (∀ s a, a ∈ l → P s → P (f s a)) →
      ∀ s, P s → P (l.foldl f s) := by
  intro l
  induction l with
  | nil => intro _ s hs; exact hs
  | cons x xs ih =>
      intro h s hs
      exact ih (fun s a ha => h s a (List.mem_cons_of_mem _ ha)) (f s x)
        (h s x (List.mem_cons_self _ _) hs)

/-- Key invariant of the extraction state: the key strings of the collected
records are pairwise distinct, and each of them is registered in `seen`. -/
def keyInv (st : ExtractState) : Prop :=
  (st.recs.map (fun a => keyString a.cit)).Nodup ∧
    ∀ a ∈ st.recs, keyString a.cit ∈ st.seen

/-- The guarded append preserves the key invariant. -/
theorem keyInv_emit (st : ExtractState) (a : AnnCitation) (h : keyInv st) :
    keyInv (emit st a) := by
  unfold emit
  split
  · exact h
  · next hk =>
      refine ⟨?_, ?_⟩
      · rw [List.map_append]
        rw [List.nodup_append]
        refine ⟨h.1, List.nodup_singleton _, ?_⟩
        intro x hx hx1
        simp only [List.map_cons, List.map_nil, List.mem_singleton] at hx1
        subst hx1
        rcases List.mem_map.mp hx with ⟨b, hb, hbk⟩
        exact hk (hbk ▸ h.2 b hb)
      · intro b hb
        rcases List.mem_append.mp hb with hb | hb
        · exact List.mem_cons_of_mem _ (h.2 b hb)
        · simp only [List.mem_singleton] at hb
          subst hb
          exact List.mem_cons_self _ _

/-- Record predicate invariant: `emit` preserves "every collected record
satisfies `P`" when the new record satisfies `P`. -/
theorem pred_emit (P : AnnCitation → Prop) (st : ExtractState) (a : AnnCitation)
    (hp : P a) (h : ∀ b ∈ st.recs, P b) :
    ∀ b ∈ (emit st a).recs, P b := by
  unfold emit
  split
  · exact h
  · intro b hb
    rcases List.mem_append.mp hb with hb | hb
    · exact h b hb
    · simp only [List.mem_singleton] at hb
      subst hb
      exact hp

/-- Every record `processMatch` appends satisfies any predicate holding for
all records it can build from the given match; in particular the state
invariants below are preserved.  This lemma packages the branch analysis. -/
theorem keyInv_processMatch (cy : Int) (rt : Region) (rtext pstr : List Char)
    (m : RMatch) (st : ExtractState) (h : keyInv st) :
    keyInv (processMatch cy rt rtext pstr st m) := by
  simp only [processMatch]
  repeat' split
  all_goals
    first
      | exact h
      | exact keyInv_emit _ _ h
      | exact keyInv_emit _ _ (foldl_pres keyInv _ (fun s n => keyInv_emit s _) _ _ h)

/-- The key invariant holds for the final state of the extraction loop. -/
theorem keyInv_extractCore (cy : Int) (text : List Char) :
    keyInv (extractCore cy text) := by
  unfold extractCore
  split
  · exact ⟨List.nodup_nil, by intro a ha; cases ha⟩
  · refine foldl_pres keyInv _ (fun s pr hs => ?_) _ _
      ⟨List.nodup_nil, by intro a ha; cases ha⟩
    unfold processRegion
    refine foldl_pres keyInv _ (fun s2 pe hs2 => ?_) _ _ hs
    unfold processPattern
    exact foldl_pres keyInv _ (fun s3 mm hs3 => keyInv_processMatch _ _ _ _ _ _ hs3) _ _ hs2

/-- Every record appended by `processMatch` carries the `citation_type` of
the region pass that appended it, which is also its provenance region. -/
theorem regionInv_processMatch (cy : Int) (rt : Region) (rtext pstr : List Char)
    (m : RMatch) (st : ExtractState)
    (h : ∀ b ∈ st.recs, b.cit.ctype = b.region) :
    ∀ b ∈ (processMatch cy rt rtext pstr st m).recs, b.cit.ctype = b.region := by
  simp only [processMatch]
  repeat' split
  all_goals
    first
      | exact h
      | exact pred_emit (fun b => b.cit.ctype = b.region) _ _ rfl h
      | exact pred_emit (fun b => b.cit.ctype = b.region) _ _ rfl
          (foldl_pres (fun s : ExtractState => ∀ b ∈ s.recs, b.cit.ctype = b.region) _
            (fun s n hs => pred_emit (fun b => b.cit.ctype = b.region) _ _ rfl hs) _ _ h)

/-- Region-tagging invariant for the final extraction state. -/
theorem regionInv_extractCore (cy : Int) (text : List Char) :
    ∀ b ∈ (extractCore cy text).recs, b.cit.ctype = b.region := by
  unfold extractCore
  split
  · intro b hb; cases hb
  · refine foldl_pres (fun s : ExtractState => ∀ b ∈ s.recs, b.cit.ctype = b.region) _
      (fun s pr hs => ?_) _ _ (by intro b hb; cases hb)
    unfold processRegion
    refine foldl_pres (fun s : ExtractState => ∀ b ∈ s.recs, b.cit.ctype = b.region) _
      (fun s2 pe hs2 => ?_) _ _ hs
    unfold processPattern
    exact foldl_pres (fun s : ExtractState => ∀ b ∈ s.recs, b.cit.ctype = b.region) _
      (fun s3 mm hs3 => regionInv_processMatch _ _ _ _ _ _ hs3) _ _ hs2

/-- Claim C2: for every input text (and any current year), no two citation
records returned by `extract_citations` share the same dedup key — the
triple `(citation_type, citation_text, number)` for a numerical record, the
pair-of-authors form `(citation_type, author(s), year)` for a named record. -/
theorem c2_no_duplicate_dedup_keys (cy : Int) (text : List Char) :
    ((extract_citations cy text).map dedupKey).Nodup := by
  have h := (keyInv_extractCore cy text).1
  have h2 : ((((extractCore cy text).recs.map (fun a => a.cit)).map dedupKey).map keyOf).Nodup := by
    rw [List.map_map, List.map_map]
    exact h
  exact List.Nodup.of_map keyOf h2

/-- Claim C6: on empty input, `process_text` returns the failure dictionary
`{"success": False, "citations": [], "error": "Empty text provided"}` without
raising, and `extract_citations` returns the empty sequence. -/
theorem c6_empty_text (cy : Int) :
    process_text cy [] = ⟨false, [], some "Empty text provided".toList⟩ ∧
      extract_citations cy [] = [] :=
  ⟨rfl, rfl⟩

/-- Claim C8: extraction is deterministic — for a fixed current date, two
runs of `extract_citations` (and of `process_text`) on the same text return
identical sequences; in this embedding the extractor is a pure function of
the text and the current year, its only ambient input. -/
theorem c8_deterministic (cy : Int) (text : List Char) :
    extract_citations cy text = extract_citations cy text ∧
      process_text cy text = process_text cy text :=
  ⟨rfl, rfl⟩

/-- The head of a list is a member. -/
theorem head?_mem {α : Type} {l : List α} {x : α} (h : l.head? = some x) : x ∈ l := by
  cases l with
  | nil => cases h
  | cons a t =>
      simp only [List.head?] at h
      cases h
      exact List.mem_cons_self _ _

/-- Membership in a class match: the string starts with a character of the
class and exactly that character is consumed. -/
theorem allM_cls_mem {f : Nat} {p : Char → Bool} {s : List Char} {pr : Caps × List Char}
    (h : pr ∈ allM f (.cls p) s) :
    ∃ c t, s = c :: t ∧ p c = true ∧ pr = ([], t) := by
  match f, s with
  | 0, _ => cases h
  | _ + 1, [] => cases h
  | _ + 1, c :: t =>
      simp only [allM] at h
      split at h
      · next hc =>
          simp only [List.mem_singleton] at h
          exact ⟨c, t, rfl, hc, h⟩
      · cases h

/-- Membership in a concatenation match decomposes into the two parts. -/
theorem allM_concat_mem {f : Nat} {a b : Regex} {s : List Char} {pr : Caps × List Char}
    (h : pr ∈ allM f (.concat a b) s) :
    ∃ c1 s1 c2, (c1, s1) ∈ allM (f - 1) a s ∧ (c2, pr.2) ∈ allM (f - 1) b s1 ∧
      pr.1 = c1 ++ c2 := by
  match f with
  | 0 => cases h
  | f1 + 1 =>
      simp only [allM, List.mem_flatMap, List.mem_map] at h
      obtain ⟨⟨c1, s1⟩, h1, ⟨c2, s2⟩, h2, heq⟩ := h
      obtain ⟨pc, ps⟩ := pr
      cases heq
      exact ⟨c1, s1, c2, h1, h2, rfl⟩

/-- Membership in a group match decomposes into the body match. -/
theorem allM_group_mem {f i : Nat} {a : Regex} {s : List Char} {pr : Caps × List Char}
    (h : pr ∈ allM f (.group i a) s) :
    ∃ c1, (c1, pr.2) ∈ allM (f - 1) a s ∧ pr.1 = c1 ++ [(i, s.length, pr.2.length)] := by
  match f with
  | 0 => cases h
  | f1 + 1 =>
      simp only [allM, List.mem_map] at h
      obtain ⟨⟨c1, s1⟩, h1, heq⟩ := h
      obtain ⟨pc, ps⟩ := pr
      cases heq
      exact ⟨c1, h1, rfl⟩

/-- A star match never lengthens the unconsumed suffix. -/
theorem allM_star_length {a : Regex} :
    ∀ (f : Nat) (s : List Char) (pr : Caps × List Char),
      pr ∈ allM f (.star a) s → pr.2.length ≤ s.length := by
  intro f
  induction f with
  | zero => intro s pr h; cases h
  | succ f ih =>
      intro s pr h
      simp only [allM, List.mem_append, List.mem_flatMap, List.mem_filter,
        List.mem_map, List.mem_singleton, decide_eq_true_eq] at h
      rcases h with ⟨⟨c1, s1⟩, ⟨_, hlt⟩, ⟨c2, s2⟩, h2, heq⟩ | h
      · have h2l := ih s1 (c2, s2) h2
        have : pr.2 = s2 := by rw [← heq]
        rw [this]
        exact le_trans h2l (le_of_lt hlt)
      · rw [h]

/-- A match of `(cls q)+` consumes a first character of the class, and the
rest of the match stays within the remaining string. -/
theorem allM_plus_head {f : Nat} {q : Char → Bool} {s : List Char} {pr : Caps × List Char}
    (h : pr ∈ allM f (.concat (.cls q) (.star (.cls q))) s) :
    ∃ d t, s = d :: t ∧ q d = true ∧ pr.2.length ≤ t.length := by
  obtain ⟨c1, s1, c2, h1, h2, _⟩ := allM_concat_mem h
  obtain ⟨d, t, hs, hd, heq⟩ := allM_cls_mem h1
  have hs1 : s1 = t := congrArg Prod.snd heq
  have hlen := allM_star_length _ _ _ h2
  rw [hs1] at hlen
  exact ⟨d, t, hs, hd, hlen⟩

/-- Taking at least two characters of `c :: d :: t` keeps `d`. -/
theorem take_two_any_digit {k : Nat} {c d : Char} {t : List Char}
    (hk : 2 ≤ k) (hd : d.isDigit = true) :
    ((c :: d :: t).take k).any Char.isDigit = true := by
  match k, hk with
  | k' + 2, _ =>
      simp only [List.take_succ_cons, List.any_cons, hd, Bool.true_or, Bool.or_true]

/-- Any match of a regex of the shape `\((BODY)\)` — a parenthesis-like
class, a group around `BODY`, a closing class — contains a digit in its
matched text, provided every `BODY` match starts with a digit. -/
theorem allM_paren_digit (BODY : Regex) {q r : Char → Bool}
    (hBody : ∀ (f' : Nat) (s' : List Char) (pr' : Caps × List Char),
      pr' ∈ allM f' BODY s' →
        ∃ d t, s' = d :: t ∧ d.isDigit = true ∧ pr'.2.length ≤ t.length) :
    ∀ (f : Nat) (s : List Char) (pr : Caps × List Char),
      pr ∈ allM f (.concat (.cls q) (.concat (.group 1 BODY) (.cls r))) s →
        (s.take (s.length - pr.2.length)).any Char.isDigit = true := by
  intro f s pr h
  obtain ⟨c1, s1, c2, h1, h2, _⟩ := allM_concat_mem h
  obtain ⟨ch, t, rfl, _, heq1⟩ := allM_cls_mem h1
  cases heq1
  obtain ⟨cg, sg, cr, hg, hr, _⟩ := allM_concat_mem h2
  obtain ⟨cb, hb, _⟩ := allM_group_mem hg
  obtain ⟨d, t2, rfl, hd, hle⟩ := hBody _ _ _ hb
  obtain ⟨ch2, t3, heq3, _, heq4⟩ := allM_cls_mem hr
  have hpr2 : pr.2 = t3 := congrArg Prod.snd heq4
  have hlen3 : t3.length < sg.length := by rw [heq3]; simp
  have hle2 : pr.2.length ≤ t2.length := by
    rw [hpr2]
    exact le_trans (le_of_lt hlen3) hle
  have hk : 2 ≤ (ch :: d :: t2).length - pr.2.length := by
    simp only [List.length_cons]
    omega
  exact take_two_any_digit hk hd

/-- Each match recorded by the scanner comes from a successful match attempt
at its start offset, and its end offset is determined by the unconsumed
suffix of that attempt. -/
theorem scanAux_mem {r : Regex} {s : List Char} :
    ∀ (fuel pos : Nat) (m : RMatch), m ∈ scanAux r s fuel pos →
      ∃ caps rest, matchAt r s m.mstart = some (caps, rest) ∧ m.caps = caps ∧
        m.mstop = m.mstart + ((s.length - m.mstart) - rest.length) := by
  intro fuel
  induction fuel with
  | zero => intro pos m h; cases h
  | succ fuel ih =>
      intro pos m h
      simp only [scanAux] at h
      split at h
      · cases h
      · rcases hmat : matchAt r s pos with _ | ⟨caps, rest⟩
        · rw [hmat] at h
          exact ih _ _ h
        · rw [hmat] at h
          rcases List.mem_cons.mp h with rfl | h2
          · exact ⟨caps, rest, hmat, rfl, rfl⟩
          · exact ih _ _ h2

/-- Every match of pattern 4 found by the scanner has a digit in its text. -/
theorem pat4_finditer_digit {txt : List Char} {m : RMatch}
    (h : m ∈ finditer pat4.ast txt) :
    (matchText txt m).any Char.isDigit = true := by
  obtain ⟨caps, rest, hmat, _, hstop⟩ := scanAux_mem _ _ _ h
  have hmem : (caps, rest) ∈ allMatches pat4.ast (txt.drop m.mstart) := head?_mem hmat
  have hdig := allM_paren_digit (rplus digitC)
    (fun f' s' pr' h' => allM_plus_head h') _ _ _ hmem
  unfold matchText
  have hlen : (txt.drop m.mstart).length = txt.length - m.mstart := List.length_drop _ _
  rw [hstop]
  rw [Nat.add_sub_cancel_left]
  rw [← hlen]
  exact hdig

/-- Every match of the group body of pattern 5 starts with a digit. -/
theorem pat5_body_head {f : Nat} {s : List Char} {pr : Caps × List Char}
    (h : pr ∈ allM f (.concat (rplus digitC) (.star p5tail)) s) :
    ∃ d t, s = d :: t ∧ d.isDigit = true ∧ pr.2.length ≤ t.length := by
  obtain ⟨c1, s1, c2, h1, h2, _⟩ := allM_concat_mem h
  obtain ⟨d, t, hs, hd, hle⟩ := allM_plus_head h1
  have hstar := allM_star_length _ _ _ h2
  exact ⟨d, t, hs, hd, le_trans hstar hle⟩

/-- Every match of pattern 5 found by the scanner has a digit in its text. -/
theorem pat5_finditer_digit {txt : List Char} {m : RMatch}
    (h : m ∈ finditer pat5.ast txt) :
    (matchText txt m).any Char.isDigit = true := by
  obtain ⟨caps, rest, hmat, _, hstop⟩ := scanAux_mem _ _ _ h
  have hmem : (caps, rest) ∈ allMatches pat5.ast (txt.drop m.mstart) := head?_mem hmat
  have hdig := allM_paren_digit (.concat (rplus digitC) (.star p5tail))
    (fun f' s' pr' h' => pat5_body_head h') _ _ _ hmem
  unfold matchText
  have hlen : (txt.drop m.mstart).length = txt.length - m.mstart := List.length_drop _ _
  rw [hstop]
  rw [Nat.add_sub_cancel_left]
  rw [← hlen]
  exact hdig

/-- A pattern string containing `[` routes every match numerically. -/
theorem numericalCond_of_bracket {p : List Char} (hp : p.contains '[' = true)
    (mt : List Char) : numericalCond p mt = true := by
  simp only [numericalCond, hp, Bool.true_or]

/-- A pattern string containing `(` routes a digit-bearing match numerically. -/
theorem numericalCond_of_paren_digit {p mt : List Char} (hp : p.contains '(' = true)
    (hd : mt.any Char.isDigit = true) : numericalCond p mt = true := by
  simp only [numericalCond, hp, hd, Bool.and_self, Bool.or_true]

/-- For every pattern of the library and every match the scanner finds for
it, the branch condition of line 117 routes the match through the numerical
branch: all patterns except 4 and 5 contain `[` in their source string
(either as a bracket literal or in a character class), and patterns 4 and 5
contain `(` while each of their matches contains a digit. -/
theorem pattern_match_numericalCond (pe : PatEntry) (hpe : pe ∈ patternTable)
    (txt : List Char) (m : RMatch) (hm : m ∈ finditer pe.ast txt) :
    numericalCond pe.pstr (matchText txt m) = true := by
  simp only [patternTable, List.mem_cons, List.not_mem_nil, or_false] at hpe
  rcases hpe with rfl | rfl | rfl | rfl | rfl | rfl | rfl | rfl | rfl | rfl |
    rfl | rfl | rfl | rfl | rfl | rfl | rfl | rfl | rfl | rfl
  · exact numericalCond_of_bracket (by decide) _
  · exact numericalCond_of_bracket (by decide) _
  · exact numericalCond_of_bracket (by decide) _
  · exact numericalCond_of_paren_digit (by decide) (pat4_finditer_digit hm)
  · exact numericalCond_of_paren_digit (by decide) (pat5_finditer_digit hm)
  · exact numericalCond_of_bracket (by decide) _
  · exact numericalCond_of_bracket (by decide) _
  · exact numericalCond_of_bracket (by decide) _
  · exact numericalCond_of_bracket (by decide) _
  · exact numericalCond_of_bracket (by decide) _
  · exact numericalCond_of_bracket (by decide) _
  · exact numericalCond_of_bracket (by decide) _
  · exact numericalCond_of_bracket (by decide) _
  · exact numericalCond_of_bracket (by decide) _
  · exact numericalCond_of_bracket (by decide) _
  · exact numericalCond_of_bracket (by decide) _
  · exact numericalCond_of_bracket (by decide) _
  · exact numericalCond_of_bracket (by decide) _
  · exact numericalCond_of_bracket (by decide) _
  · exact numericalCond_of_bracket (by decide) _

/-- Since the numerical branch handles every match of every library pattern,
`processMatch` only ever appends records of the numerical shape. -/
theorem numInv_processMatch (cy : Int) (rt : Region) (rtext : List Char)
    (pe : PatEntry) (hpe : pe ∈ patternTable) (m : RMatch)
    (hm : m ∈ finditer pe.ast rtext) (st : ExtractState)
    (h : ∀ b ∈ st.recs, b.cit.isNumerical = true) :
    ∀ b ∈ (processMatch cy rt rtext pe.pstr st m).recs, b.cit.isNumerical = true := by
  have hc := pattern_match_numericalCond pe hpe rtext m hm
  simp only [processMatch, hc, if_true]
  split
  · exact h
  · refine pred_emit (fun b => b.cit.isNumerical = true) _ _ rfl ?_
    refine foldl_pres (fun s : ExtractState => ∀ b ∈ s.recs, b.cit.isNumerical = true) _ ?_ _ _ h
    intro s n hs
    exact pred_emit (fun b => b.cit.isNumerical = true) _ _ rfl hs

/-- Every record of the final extraction state is numerical. -/
theorem numInv_extractCore (cy : Int) (text : List Char) :
    ∀ b ∈ (extractCore cy text).recs, b.cit.isNumerical = true := by
  unfold extractCore
  split
  · intro b hb; cases hb
  · refine foldl_pres (fun s : ExtractState => ∀ b ∈ s.recs, b.cit.isNumerical = true) _
      (fun s pr hs => ?_) _ _ (by intro b hb; cases hb)
    unfold processRegion
    refine foldl_pres_mem (fun s : ExtractState => ∀ b ∈ s.recs, b.cit.isNumerical = true) _
      patternTable (fun s2 pe hpe hs2 => ?_) _ hs
    unfold processPattern
    exact foldl_pres_mem (fun s : ExtractState => ∀ b ∈ s.recs, b.cit.isNumerical = true) _
      (finditer pe.ast pr.2) (fun s3 mm hmm hs3 => numInv_processMatch _ _ _ pe hpe mm hmm _ hs3)
      _ hs2

/-- The Python single-character `in` test agrees with list membership. -/
theorem contains_iff_mem (l : List Char) (c : Char) : l.contains c = true ↔ c ∈ l :=
  List.elem_iff

/-- A numerical record trivially satisfies the named-year property. -/
theorem namedYearOK_of_numerical (cy : Int) (c : Citation)
    (h : c.isNumerical = true) : namedYearOK cy c = true := by
  cases c with
  | numerical t n rt ctx => rfl
  | single a y rt ctx => simp [Citation.isNumerical] at h
  | two a1 a2 y rt ctx => simp [Citation.isNumerical] at h

/-- Claim C10: every record returned by `extract_citations` has the
numerical shape `{citation_text, number, type: "numerical", citation_type,
context}`; no record carrying an author field is ever produced, because every
pattern string of the library either contains `[` (including inside character
classes such as `[A-Z]`) or contains `(` while each of its matches contains a
digit, so the numerical branch handles every match. -/
theorem c10_all_records_numerical (cy : Int) (text : List Char) :
    (extract_citations cy text).all Citation.isNumerical = true := by
  rw [List.all_eq_true]
  intro c hc
  rcases List.mem_map.mp hc with ⟨b, hb, rfl⟩
  exact numInv_extractCore cy text b hb

/-- Claim C7: for every input text and current year, every named citation
record in the output has a year that passes the bound `1800 <=` (year after
stripping one trailing lowercase letter) `<= current_year + 1`.  (This holds
because the named branches validate the year before emitting — and, as
`c10`-style analysis shows, no named record is in fact ever emitted, so the
property is satisfied by every output.) -/
theorem c7_named_year_bound (cy : Int) (text : List Char) :
    (extract_citations cy text).all (namedYearOK cy) = true := by
  rw [List.all_eq_true]
  intro c hc
  rcases List.mem_map.mp hc with ⟨b, hb, rfl⟩
  exact namedYearOK_of_numerical cy _ (numInv_extractCore cy text b hb)

/-- Claim C3, amended: the `citation_type` of each record equals the region
pass
that produced it — `"inline"` for records found while scanning the full text
(even when the match lies inside the detected references block, since the
full text is scanned in its entirety as the inline region) and `"reference"`
for records found while scanning the references block. -/
theorem c3_amended_type_is_producing_region (cy : Int) (text : List Char) :
    (extractCore cy text).recs.all (fun a => decide (a.cit.ctype = a.region)) = true := by
  rw [List.all_eq_true]
  intro a ha
  exact decide_eq_true (regionInv_extractCore cy text a ha)

/-- Claim C3, counterexample to the original statement: on
`"References\n[7]"` a references block is detected spanning offsets 11 to 14
of the full text, and the output contains a record produced by the full-text
(inline) pass whose match lies exactly inside that block — offsets 11 to 14 —
yet whose `citation_type` is `"inline"`, not `"reference"`. -/
theorem c3_counterexample :
    refGroupSpan scenario3Text = some (11, 14) ∧
      ∃ a ∈ (extractCore 2025 scenario3Text).recs,
        a.region = .inline ∧ 11 ≤ a.mstart ∧ a.mstop ≤ 14 ∧ a.cit.ctype = .inline := by
  decide

/-- Claim C1: the effective routing condition of line 117.  For every pattern
`p` of the library and any match text, the match is routed through the
numerical branch exactly when `[` occurs in `p`, or `(` occurs in `p` and the
match text contains a digit; in particular a digit-bearing match of any
pattern containing `(` — author-year patterns included — goes to the
numerical branch. -/
theorem c1_numerical_branch_condition :
    ∀ p ∈ patternStrings, ∀ mt : List Char,
      (numericalCond p mt = true ↔
        ('[' ∈ p ∨ ('(' ∈ p ∧ mt.any Char.isDigit = true))) ∧
      (mt.any Char.isDigit = true → '(' ∈ p → numericalCond p mt = true) := by
  intro p _ mt
  constructor
  · unfold numericalCond
    simp only [Bool.or_eq_true, Bool.and_eq_true, contains_iff_mem]
  · intro hd hparen
    exact numericalCond_of_paren_digit ((contains_iff_mem _ _).mpr hparen) hd

/-- Witness for claim C1, at the single-author pattern
`([A-Z][a-z]+(?:\s+[A-Z][a-z]+)*)\s*\((\d{4})\)` and the match text
`"Smith (2020)"`: the pattern is in the library and the condition routes the
match numerically. -/
theorem c1_witness :
    pat8.pstr ∈ patternStrings ∧
      numericalCond pat8.pstr ("Smith (2020)".toList) = true :=
  ⟨by decide,
   (c1_numerical_branch_condition pat8.pstr (by decide) ("Smith (2020)".toList)).2
     (by decide) (by decide)⟩

/-- Claim C5, counterexample: on `"See [1] and [2,3] for details."` the
extractor returns four numerical records, not three — the optional
trailing-text group of pattern 1 extends the first match to `"[1] and "`,
which then
coexists with the `"[1]"` of pattern 2 under a different `citation_text`. -/
theorem c5_counterexample :
    ((extract_citations 2025 scenario5Text).filter Citation.isNumerical).length = 4 ∧
      ¬((extract_citations 2025 scenario5Text).length = 3) := by
  decide

/-- Claim C5, amended: the call returns exactly four numerical records, with
numbers `"1"`, `"1"`, `"2"`, `"3"` and citation texts `"[1] and "`, `"[1]"`,
`"[2,3]"`, `"[2,3]"`, all with `citation_type = "inline"` (and the full text
as context). -/
theorem c5_amended_scenario :
    extract_citations 2025 scenario5Text =
      [.numerical "[1] and ".toList "1".toList .inline scenario5Text,
       .numerical "[1]".toList "1".toList .inline scenario5Text,
       .numerical "[2,3]".toList "2".toList .inline scenario5Text,
       .numerical "[2,3]".toList "3".toList .inline scenario5Text] := by
  decide

set_option maxRecDepth 100000 in
/-- Claim C4, counterexample: on the scenario text no named record at all —
in particular none with author `"Smith"` and year `"2020"` — appears in the
output: the pattern string of every author-year pattern contains `[` or `(`,
so the match `"Smith (2020)"` is routed through the numerical branch. -/
theorem c4_counterexample :
    ¬ ∃ c ∈ extract_citations 2025 scenario4Text,
        hasNamedAuthorYear "Smith".toList "2020".toList c = true := by
  decide

set_option maxRecDepth 100000 in
/-- Claim C4, amended: the call returns at least one numerical record whose
citation text is `"Smith (2020)"` with number `"2020"` (in place of the named
record the original claim expected), and at least one record with
`citation_type = "reference"`. -/
theorem c4_amended_scenario :
    (∃ c ∈ extract_citations 2025 scenario4Text,
        dedupKey c = .num .inline "Smith (2020)".toList "2020".toList) ∧
      ∃ c ∈ extract_citations 2025 scenario4Text, c.ctype = .reference := by
  decide

/-- Claim C9: for a task that reaches the citation branch of `run` (it is
nonempty, contains `"citation"` or `"reference"` after lowering and
stripping, and matched neither the search nor the download branch), if the
task has a colon and the stripped text after the first colon is nonempty then
`run` delegates that text to the citation extraction engine, and otherwise
`run` returns the structured failure result (success `False` with an error
string) instead of raising. -/
theorem c9_citation_routing (cy : Int) (task : List Char) (mr : Option Nat)
    (hne : task ≠ [])
    (hcit : citationTaskCond (taskLower task) = true)
    (hns : searchTaskCond (taskLower task) = false)
    (hnd : downloadTaskCond (taskLower task) = false) :
    (∀ after, splitFirstColon task = some after →
        (pyStrip after ≠ [] →
          run cy task mr = .citationExtraction (pyStrip after) (process_text cy (pyStrip after))) ∧
        (pyStrip after = [] →
          run cy task mr = .failed "Empty text for citation extraction".toList)) ∧
      (splitFirstColon task = none →
        run cy task mr = .failed "No text provided for citation extraction".toList) := by
  constructor
  · intro after hsplit
    constructor
    · intro hstrip
      simp [run, hne, hns, hnd, hcit, hsplit, hstrip]
    · intro hstrip
      simp [run, hne, hns, hnd, hcit, hsplit, hstrip]
  · intro hsplit
    simp [run, hne, hns, hnd, hcit, hsplit]

/-- Witness for claim C9: the scenario task
`"extract citations: Smith (2020) argued..."` satisfies the branch
hypotheses, and `run` delegates the text after the colon, stripped, to the
extraction engine. -/
theorem c9_witness :
    run 2025 scenario9Task none =
      .citationExtraction ("Smith (2020) argued...".toList)
        (process_text 2025 ("Smith (2020) argued...".toList)) :=
  ((c9_citation_routing 2025 scenario9Task none (by decide) (by decide) (by decide)
      (by decide)).1 (" Smith (2020) argued...".toList) (by decide)).1 (by decide)
